import Mathlib

/-!
Verification of the MonA ASIC discovery/enrichment core.

This file is a shallow embedding, in Lean 4, of the parts of the Go
source that the checked properties talk about:

* internal/discovery/scanner/scanner.go   (confidence scoring, CIDR and
  range enumeration),
* internal/netutil (previewCIDR / parseRange, file part_004),
* internal/antminer/httpapi (Digest auth, file part_005 and httpapi.go),
* internal/core/registry (store, list, subscribe/notify, file part_001),
* cmd/core main (enrichment closures, backoff gate, file part_000).

Conventions:
* IPv4 addresses and machine integers are modelled as Nat (with explicit
  mod 2^32 where the Go code can wrap); Go byte-array helpers inc4 / dec4 /
  bytesLE act lexicographically on the four bytes, which coincides with
  plus-one / minus-one mod 2^32 and strict numeric less-than, and are
  embedded as such.
* float64 fields (hashrates, temperatures) are modelled as Rat; the claims
  only ever compare them with zero.
* time.Time values are Unix seconds as Nat; time.Duration values are
  seconds.
* Go maps keyed by strings are association lists.
-/

/-! ## Shared small helpers -/

/-- Go helper hasPort (scanner.go): linear scan of the open-port slice. -/
def hasPort : List Nat → Nat → Bool
  | [], _ => false
  | x :: xs, p => if x = p then true else hasPort xs p

/-- Membership characterisation of hasPort. -/
theorem hasPort_eq_contains (l : List Nat) (p : Nat) :
    hasPort l p = l.contains p := by
  induction l with
  | nil => rfl
  | cons x xs ih =>
      by_cases h : x = p
      · simp [hasPort, h, List.contains_cons]
      · simp [hasPort, h, List.contains_cons, ih, Ne.symm h]

/-- ASCII lower-casing of one character (the Go code uses strings.ToLower;
every string the claims compare is ASCII). -/
def lowerChar (c : Char) : Char :=
  if 'A' ≤ c ∧ c ≤ 'Z' then Char.ofNat (c.toNat + 32) else c

/-- Go strings.ToLower on ASCII data. -/
def lowerStr (s : String) : String := String.mk (s.toList.map lowerChar)

/-- The ASCII whitespace Go strings.TrimSpace removes on the inputs at hand. -/
def isSpaceChar (c : Char) : Bool := c = ' ' ∨ c = '\t' ∨ c = '\n' ∨ c = '\r'

/-- Go strings.TrimSpace. -/
def trimStr (s : String) : String :=
  String.mk (((s.toList.dropWhile isSpaceChar).reverse.dropWhile isSpaceChar).reverse)

/-- Character-list prefix test (Go strings.HasPrefix). -/
def listStartsWith : List Char → List Char → Bool
  | _, [] => true
  | [], _ :: _ => false
  | x :: xs, y :: ys => if x = y then listStartsWith xs ys else false

/-- Go strings.HasPrefix. -/
def startsWithStr (s pat : String) : Bool := listStartsWith s.toList pat.toList

/-- Go strings.Split worker: scan left to right, cutting at every
occurrence of sep (fuel is the input length, enough for every cut). -/
def splitOnCharsFuel (sep : List Char) : Nat → List Char → List Char → List (List Char)
  | _, [], acc => [acc.reverse]
  | 0, s, acc => [acc.reverse ++ s]
  | fuel + 1, c :: rest, acc =>
      if sep ≠ [] ∧ listStartsWith (c :: rest) sep then
        acc.reverse :: splitOnCharsFuel sep fuel (List.drop sep.length (c :: rest)) []
      else
        splitOnCharsFuel sep fuel rest (c :: acc)

/-- Go strings.Split (the sources only call it with non-empty separators). -/
def splitOnStr (s sep : String) : List String :=
  if sep = "" then [s]
  else (splitOnCharsFuel sep.toList s.toList.length s.toList []).map String.mk

/-- Go strings.Contains: a non-empty pattern occurs in s iff splitting on
it produces more than one piece. -/
def containsSubstr (s pat : String) : Bool :=
  if pat = "" then true else (splitOnStr s pat).length != 1

/-! ## Scanner results and confidence scoring (scanner.go) -/

/-- scanner.Result: one scanned host. Field-for-field translation of the Go
struct (IP kept as a string, floats as Rat). -/
structure Result where
  ip : String := ""
  online : Bool := false
  open' : List Nat := []        -- Go field Open ([]int)
  vendor : String := ""
  firmware : String := ""
  model : String := ""
  isASIC : Bool := false
  confidence : Int := 0
  worker : String := ""
  uptimeS : Nat := 0
  hashrateTHS : Rat := 0
  fansRPM : List Int := []
  tempsC : List Rat := []
deriving DecidableEq

/-- Scanner.score (scanner.go lines 558-585), statement-by-statement. -/
def score (r : Result) : Int :=
  let s0 : Int := 0
  let s1 := if r.vendor ≠ "" ∧ r.vendor ≠ "asic" then s0 + 40
            else if r.vendor = "asic" then s0 + 15 else s0
  let s2 := if r.vendor = "antminer" ∧ (hasPort r.open' 80 ∨ hasPort r.open' 443)
            then s1 + 15 else s1
  let s3 := if hasPort r.open' 4028 then s2 + 35 else s2
  let s4 := if hasPort r.open' 80 ∨ hasPort r.open' 443 then s3 + 10 else s3
  let s5 := if r.worker ≠ "" then s4 + 10 else s4
  let s6 := if 0 < r.hashrateTHS then s5 + 5 else s5
  if s6 > 100 then 100 else s6

/-- Scanner.probeIP tail (scanner.go lines 220-222): fill Confidence from
score and classify IsASIC. -/
def probeIPClassify (r : Result) : Result :=
  let r1 := { r with confidence := score r }
  { r1 with isASIC := decide (r1.confidence ≥ 60) }

/-- The confidence weights exactly as the spec sentence enumerates them
(sum of six independent weight terms, then clipped to at most 100).
This definition follows the spec wording; the theorem compares it against
the source translation score. -/
def scoreSpec (r : Result) : Int :=
  let wVendor : Int := if r.vendor ≠ "" ∧ r.vendor ≠ "asic" then 40
                       else if r.vendor = "asic" then 15 else 0
  let wStockWeb : Int := if r.vendor = "antminer" ∧ (hasPort r.open' 80 ∨ hasPort r.open' 443)
                         then 15 else 0
  let wApi : Int := if hasPort r.open' 4028 then 35 else 0
  let wWeb : Int := if hasPort r.open' 80 ∨ hasPort r.open' 443 then 10 else 0
  let wWorker : Int := if r.worker ≠ "" then 10 else 0
  let wHash : Int := if 0 < r.hashrateTHS then 5 else 0
  let total := wVendor + wStockWeb + wApi + wWeb + wWorker + wHash
  if total > 100 then 100 else total

/-- The spec's concrete scoring example: primary vendor, web and API ports
open, worker known, hashrate known. -/
def exampleScanResult : Result :=
  { ip := "10.0.0.7", online := true, open' := [80, 4028],
    vendor := "antminer", worker := "w1", hashrateTHS := 95 }

set_option maxHeartbeats 1000000 in
/-- C4: for every ScanResult the confidence equals the spec's weight sum
clipped to 100, IsASIC holds iff the confidence is at least 60, and the
spec's example (antminer, ports 80 and 4028 open, worker set, hashrate
positive) scores 115 clipped to 100 and is classified as an ASIC. -/
theorem c4_confidence_scoring (r : Result) :
    score r = scoreSpec r ∧
    ((probeIPClassify r).isASIC = true ↔ 60 ≤ (probeIPClassify r).confidence) ∧
    score exampleScanResult = 100 ∧
    (probeIPClassify exampleScanResult).isASIC = true := by
  refine ⟨?_, ?_, ?_, ?_⟩
  · unfold score scoreSpec
    dsimp only
    split_ifs <;> omega
  · simp [probeIPClassify]
  · rfl
  · rfl

/-! ## Address space: CIDR enumeration and preview (scanner.go, netutil part_004)

IPv4 addresses are Nat values below 2^32. The Go helpers act on 4-byte
arrays: inc4 is increment with carry (= +1 mod 2^32), dec4 is decrement
with borrow (= -1 mod 2^32), bytesLE is lexicographic strict less-than
(= numeric <), and ip.Mask clears the host bits. -/

def ipMod : Nat := 2 ^ 32

/-- Go inc4: 4-byte increment with carry. -/
def inc4 (x : Nat) : Nat := (x + 1) % ipMod

/-- Go dec4: 4-byte decrement with borrow. -/
def dec4 (x : Nat) : Nat := (x + (ipMod - 1)) % ipMod

/-- Go bytesLE: lexicographic byte comparison; despite the name it is
strict less-than. -/
def bytesLE (a b : Nat) : Bool := a < b

/-- Go distance4 (netutil): numeric distance, 0 when reversed. -/
def distance4 (a b : Nat) : Nat := if b < a then 0 else b - a

/-- Number of addresses in one CIDR block of the given prefix length
(2^(32-prefixLen)); ip.Mask keeps the bits above it. -/
def blockSize (prefixLen : Nat) : Nat := 2 ^ (32 - prefixLen)

/-- network = ip.Mask(n.Mask): clear the host bits. -/
def networkOf (ip prefixLen : Nat) : Nat :=
  ip / blockSize prefixLen * blockSize prefixLen

/-- broadcast[i] = network[i] | ^mask[i]: set the host bits. -/
def broadcastOf (ip prefixLen : Nat) : Nat :=
  networkOf ip prefixLen + (blockSize prefixLen - 1)

/-- The enumeration loop of enumerateIPv4: append cur, stop when cur equals
the end address, else inc4.  The Go loop is only entered when
start <= end and never wraps, so plain +1 recursion is the exact
behaviour on that domain. -/
def enumFromTo (cur e : Nat) : List Nat :=
  if e ≤ cur then [cur] else cur :: enumFromTo (cur + 1) e
termination_by e - cur
decreasing_by omega

/-- scanner.enumerateIPv4 (scanner.go lines 690-733): hosts of a CIDR
block, network and broadcast excluded; empty when broadcast-1 precedes
network+1. -/
def enumerateIPv4 (ip prefixLen : Nat) : List Nat :=
  let network := networkOf ip prefixLen
  let broadcast := broadcastOf ip prefixLen
  let start := inc4 network
  let stop := dec4 broadcast
  if bytesLE stop start then [] else enumFromTo start stop

/-- netutil.CIDRPreview, restricted to the fields the claims are about
(Valid, TotalHosts, First, Last; the Samples list is presentation only
and not modelled). -/
structure CIDRPreview where
  valid : Bool
  totalHosts : Nat
  first : Option Nat
  last : Option Nat
deriving DecidableEq

/-- netutil.previewCIDR (part_004 lines 97-154) on an already-parsed
IPv4 CIDR. -/
def previewCIDR (ip prefixLen : Nat) : CIDRPreview :=
  let network := networkOf ip prefixLen
  let broadcast := broadcastOf ip prefixLen
  let start := inc4 network
  let stop := dec4 broadcast
  if bytesLE stop start then
    { valid := true, totalHosts := 0, first := none, last := none }
  else
    { valid := true, totalHosts := distance4 start stop + 1,
      first := some start, last := some stop }

/-- Unfolding lemma for enumFromTo (the equation compiler already gives
this, restated for rewriting). -/
theorem enumFromTo_eq (cur e : Nat) :
    enumFromTo cur e = if e ≤ cur then [cur] else cur :: enumFromTo (cur + 1) e := by
  rw [enumFromTo]

/-- enumFromTo from a to a+n is the arithmetic progression a, a+1, ..., a+n. -/
theorem enumFromTo_closed (n a : Nat) :
    enumFromTo a (a + n) = (List.range (n + 1)).map (a + ·) := by
  induction n generalizing a with
  | zero =>
      have h1 : List.range 1 = [0] := rfl
      simp [enumFromTo_eq, h1]
  | succ k ih =>
      rw [enumFromTo_eq, if_neg (by omega)]
      have h2 : a + (k + 1) = (a + 1) + k := by omega
      rw [h2, ih (a + 1)]
      conv_rhs => rw [List.range_succ_eq_map]
      simp only [List.map_cons, List.map_map, Nat.add_zero]
      congr 1
      apply List.map_congr_left
      intro x _
      simp only [Function.comp_apply]
      omega

/-- Length of the progression. -/
theorem enumFromTo_length (n a : Nat) :
    (enumFromTo a (a + n)).length = n + 1 := by
  rw [enumFromTo_closed]; simp

/-- First element of the progression. -/
theorem enumFromTo_head (n a : Nat) :
    (enumFromTo a (a + n)).head? = some a := by
  rw [enumFromTo_closed, List.range_succ_eq_map]
  simp

/-- Last element of the progression. -/
theorem enumFromTo_last (n a : Nat) :
    (enumFromTo a (a + n)).getLast? = some (a + n) := by
  rw [enumFromTo_closed, List.getLast?_map, List.range_succ, List.getLast?_append]
  simp

set_option maxHeartbeats 1000000 in
/-- C5: for every IPv4 /24 CIDR block, enumerateIPv4 yields exactly 254
addresses, the first being the network address plus one and the last the
broadcast address minus one, and previewCIDR reports the same total host
count with the same first and last addresses. -/
theorem c5_slash24_enumeration (ip : Nat) (hip : ip < 2 ^ 32) :
    (enumerateIPv4 ip 24).length = 254 ∧
    (enumerateIPv4 ip 24).head? = some (networkOf ip 24 + 1) ∧
    (enumerateIPv4 ip 24).getLast? = some (broadcastOf ip 24 - 1) ∧
    (previewCIDR ip 24).valid = true ∧
    (previewCIDR ip 24).totalHosts = 254 ∧
    (previewCIDR ip 24).first = (enumerateIPv4 ip 24).head? ∧
    (previewCIDR ip 24).last = (enumerateIPv4 ip 24).getLast? := by
  have hbs : blockSize 24 = 256 := by norm_num [blockSize]
  have hnet : networkOf ip 24 = ip / 256 * 256 := by rw [networkOf, hbs]
  have hnetlt : networkOf ip 24 + 256 ≤ 2 ^ 32 := by
    rw [hnet]
    have : ip / 256 < 2 ^ 24 := by omega
    omega
  have hbr : broadcastOf ip 24 = networkOf ip 24 + 255 := by
    rw [broadcastOf, hbs]
  have hstart : inc4 (networkOf ip 24) = networkOf ip 24 + 1 := by
    rw [inc4, ipMod, Nat.mod_eq_of_lt]; omega
  have hstop : dec4 (broadcastOf ip 24) = networkOf ip 24 + 254 := by
    rw [dec4, hbr, ipMod]
    have : networkOf ip 24 + 255 + (2 ^ 32 - 1)
        = (networkOf ip 24 + 254) + 2 ^ 32 := by omega
    rw [this, Nat.add_mod_right, Nat.mod_eq_of_lt]; omega
  have hgate : bytesLE (networkOf ip 24 + 254) (networkOf ip 24 + 1) = false := by
    simp [bytesLE]
  have henum : enumerateIPv4 ip 24
      = enumFromTo (networkOf ip 24 + 1) (networkOf ip 24 + 254) := by
    simp only [enumerateIPv4, hstart, hstop, hgate]
    simp
  have hpre : previewCIDR ip 24
      = { valid := true,
          totalHosts := distance4 (networkOf ip 24 + 1) (networkOf ip 24 + 254) + 1,
          first := some (networkOf ip 24 + 1),
          last := some (networkOf ip 24 + 254) } := by
    simp only [previewCIDR, hstart, hstop, hgate]
    simp
  have hform : networkOf ip 24 + 254 = (networkOf ip 24 + 1) + 253 := by omega
  refine ⟨?_, ?_, ?_, ?_, ?_, ?_, ?_⟩
  · rw [henum, hform, enumFromTo_length]
  · rw [henum, hform, enumFromTo_head]
  · rw [henum, hform, enumFromTo_last, hbr]
    congr 1
  · rw [hpre]
  · rw [hpre]
    simp [distance4]
  · rw [hpre, henum, hform, enumFromTo_head]
  · rw [hpre, henum, hform, enumFromTo_last]

/-- Witness for C5 at the concrete block 192.168.5.0/24
(ip = 192.168.5.17 = 3232236817). -/
theorem c5_slash24_enumeration_witness :
    (3232236817 : Nat) < 2 ^ 32 ∧
    (previewCIDR 3232236817 24).totalHosts = 254 ∧
    (enumerateIPv4 3232236817 24).head? = some (networkOf 3232236817 24 + 1) := by
  refine ⟨by norm_num, ?_, ?_⟩
  · exact (c5_slash24_enumeration 3232236817 (by norm_num)).2.2.2.2.1
  · exact (c5_slash24_enumeration 3232236817 (by norm_num)).2.1

/-! ## A-B range segments (netutil.parseRange, scanner.parseRangeIPs)

Both functions first parse the two dotted quads; the claims quantify over
range segments whose addresses parsed, so the embedding takes the two
parsed addresses as input. -/

/-- netutil rangePreview (part_004): first/last as parsed plus host count. -/
structure RangePreview where
  first : Nat
  last : Nat
  totalHosts : Nat
deriving DecidableEq

/-- netutil.parseRange (part_004 lines 163-183) after address parsing:
end before start is valid but empty, otherwise distance4+1 hosts.
(The Samples strings are presentation only and not modelled.) -/
def parseRange (a b : Nat) : RangePreview :=
  if bytesLE b a then { first := a, last := b, totalHosts := 0 }
  else { first := a, last := b, totalHosts := distance4 a b + 1 }

/-- The per-segment accumulator state of netutil.PreviewSpec
(total, first, last). -/
structure PreviewAcc where
  total : Nat
  first : Option Nat
  last : Option Nat

/-- One iteration of the PreviewSpec range loop (part_004 lines 62-78):
segments with zero hosts are skipped, otherwise total/first/last update. -/
def previewSpecStep (acc : PreviewAcc) (seg : Nat × Nat) : PreviewAcc :=
  let rs := parseRange seg.1 seg.2
  if rs.totalHosts = 0 then acc
  else
    { total := acc.total + rs.totalHosts,
      first := match acc.first with
               | none => some rs.first
               | some f => if bytesLE rs.first f then some rs.first else some f,
      last := match acc.last with
              | none => some rs.last
              | some l => if bytesLE l rs.last then some rs.last else some l }

/-- netutil.PreviewSpec (part_004 lines 23-93) on a spec made of already
parsed A-B range segments: runs the loop and reports Valid with the
accumulated totals. -/
def previewSpecRanges (segs : List (Nat × Nat)) : CIDRPreview :=
  let acc := segs.foldl previewSpecStep { total := 0, first := none, last := none }
  { valid := true, totalHosts := acc.total, first := acc.first, last := acc.last }

/-- scanner.parseRangeIPs (scanner.go lines 645-661) after address parsing:
none when the end precedes the start. -/
def parseRangeIPs (a b : Nat) : Option (Nat × Nat) :=
  if b < a then none else some (a, b)

/-- The ScanSpec job loop for one A-B segment (scanner.go lines 152-165):
skip unparseable segments, else enqueue a..b inclusive. -/
def scanRangeJobs (a b : Nat) : List Nat :=
  match parseRangeIPs a b with
  | none => []
  | some (x, y) => enumFromTo x y

/-- C6: a range segment whose end precedes its start previews as valid with
zero hosts (not an error) and contributes no scan jobs. -/
theorem c6_reversed_range_valid_empty (a b : Nat) (h : b < a) :
    (previewSpecRanges [(a, b)]).valid = true ∧
    (previewSpecRanges [(a, b)]).totalHosts = 0 ∧
    (parseRange a b).totalHosts = 0 ∧
    scanRangeJobs a b = [] := by
  have hb : bytesLE b a = true := by simp [bytesLE, h]
  have hpr : parseRange a b = { first := a, last := b, totalHosts := 0 } := by
    simp [parseRange, hb]
  refine ⟨?_, ?_, ?_, ?_⟩
  · rfl
  · simp [previewSpecRanges, previewSpecStep, hpr]
  · rw [hpr]
  · simp [scanRangeJobs, parseRangeIPs, h]

/-- Witness for C6 at the spec's example 10.0.0.5-10.0.0.1
(167772165 and 167772161). -/
theorem c6_reversed_range_valid_empty_witness :
    (167772161 : Nat) < 167772165 ∧
    (previewSpecRanges [(167772165, 167772161)]).totalHosts = 0 ∧
    scanRangeJobs 167772165 167772161 = [] := by
  refine ⟨by norm_num, ?_, ?_⟩
  · exact (c6_reversed_range_valid_empty 167772165 167772161 (by norm_num)).2.1
  · exact (c6_reversed_range_valid_empty 167772165 167772161 (by norm_num)).2.2.2

/-! ## Digest authentication (antminer httpapi, part_005 and httpapi.go) -/

/-- httpapi.digestChallenge (part_005): parsed WWW-Authenticate fields.
The Go field Opaque is named opaq here. -/
structure DigestChallenge where
  realm : String := ""
  nonce : String := ""
  qop : String := ""
  algo : String := ""
  opaq : String := ""
deriving DecidableEq

/-- The double-quote character (written by code point to keep it out of
string syntax). -/
def quoteChar : Char := Char.ofNat 34

/-- Trim the double-quote cutset from both ends (Go strings.Trim with
the quote cutset). -/
def trimQuotes (s : String) : String :=
  String.mk (((s.toList.dropWhile (· = quoteChar)).reverse.dropWhile (· = quoteChar)).reverse)

/-- Go strings.SplitN(p, sep, 2): the head before the first separator and
the untouched remainder; none when the separator does not occur. -/
def splitN2 (p sep : String) : Option (String × String) :=
  match splitOnStr p sep with
  | [] => none
  | [_] => none
  | k :: rest => some (k, String.intercalate sep rest)

/-- One key=value item of the challenge loop in parseDigestChallenge
(part_005 lines 29-49). -/
def applyChallengeKV (c : DigestChallenge) (p : String) : DigestChallenge :=
  match splitN2 (trimStr p) "=" with
  | none => c
  | some (k0, v0) =>
      let k := lowerStr (trimStr k0)
      let v := trimQuotes (trimStr v0)
      if k = "realm" then { c with realm := v }
      else if k = "nonce" then { c with nonce := v }
      else if k = "qop" then { c with qop := v }
      else if k = "algorithm" then { c with algo := v }
      else if k = "opaque" then { c with opaq := v }
      else c

/-- httpapi.parseDigestChallenge (part_005 lines 21-54). -/
def parseDigestChallenge (h : String) : Option DigestChallenge :=
  let h1 := trimStr h
  if ¬ (startsWithStr (lowerStr h1) "digest " = true) then none
  else
    let rest := trimStr (String.mk (h1.toList.drop 7))
    let parts := splitOnStr rest ","
    let c := parts.foldl applyChallengeKV {}
    if c.realm = "" ∨ c.nonce = "" then none else some c

/-- The nc counter the prober always sends. -/
def digestNC : String := "00000001"

/-- The qop negotiation of buildDigestAuth (part_005 lines 71-77): auth
unless the challenge names qop values that do not include auth. -/
def digestQop (c : DigestChallenge) : String :=
  if c.qop ≠ "" ∧ containsSubstr (lowerStr c.qop) "auth" = false then "" else "auth"

/-- The response hash of buildDigestAuth (part_005 lines 69-84).  md5hex
and the random cnonce are parameters of the embedding: the claim is about
the argument strings fed to MD5, not about MD5 itself. -/
def buildDigestResponse (md5hex : String → String)
    (username password method uri cnonce : String) (c : DigestChallenge) : String :=
  let ha1 := md5hex (username ++ ":" ++ c.realm ++ ":" ++ password)
  let ha2 := md5hex (method ++ ":" ++ uri)
  let nc := digestNC
  let qop := digestQop c
  if qop ≠ "" then
    md5hex (ha1 ++ ":" ++ c.nonce ++ ":" ++ nc ++ ":" ++ cnonce ++ ":" ++ qop ++ ":" ++ ha2)
  else
    md5hex (ha1 ++ ":" ++ c.nonce ++ ":" ++ ha2)

/-- httpapi.buildDigestAuth (part_005 lines 67-114): the full
Authorization header value. -/
def buildDigestAuth (md5hex : String → String)
    (username password method uri cnonce : String) (c : DigestChallenge) : String :=
  let resp := buildDigestResponse md5hex username password method uri cnonce c
  let qop := digestQop c
  let b0 := "Digest username=\"" ++ username ++ "\", realm=\"" ++ c.realm
      ++ "\", nonce=\"" ++ c.nonce ++ "\", uri=\"" ++ uri
      ++ "\", response=\"" ++ resp ++ "\""
  let b1 := if c.opaq ≠ "" then b0 ++ ", opaque=\"" ++ c.opaq ++ "\"" else b0
  if qop ≠ "" then
    b1 ++ ", qop=" ++ qop ++ ", nc=" ++ digestNC ++ ", cnonce=\"" ++ cnonce ++ "\""
  else b1

/-- The Authorization header of one request in the tryScheme endpoint loop
(httpapi.go): none, HTTP Basic, or a Digest header string. -/
inductive AuthHdr
  | noAuth
  | basic (user pass : String)
  | digest (header : String)
deriving DecidableEq

/-- The response data the 401 branch inspects. -/
structure HttpResponse where
  status : Nat
  wwwAuthenticate : String

/-- httpapi.Cred. -/
structure Cred where
  name : String := ""
  username : String := ""
  password : String := ""
deriving DecidableEq

/-- The auth header of the first request (httpapi.go lines 112-114:
SetBasicAuth only when a username or password is present). -/
def basicHdrFor (cred : Cred) : AuthHdr :=
  if cred.username ≠ "" ∨ cred.password ≠ "" then .basic cred.username cred.password
  else .noAuth

/-- The requests tryScheme issues for one endpoint (httpapi.go lines
104-169), as the list of Authorization headers sent: the initial request,
plus — only on a 401 whose WWW-Authenticate parses as a Digest challenge
and only for a credential with a username — exactly one retry carrying
the computed Digest header.  The HTTP exchange is abstracted to a function
from the sent header to the response. -/
def endpointRequests (serve : AuthHdr → HttpResponse) (md5hex : String → String)
    (cnonce : String) (cred : Cred) (uri : String) : List AuthHdr :=
  let a1 := basicHdrFor cred
  let r1 := serve a1
  if r1.status = 401 then
    match parseDigestChallenge r1.wwwAuthenticate with
    | some ch =>
        if cred.username ≠ "" then
          [a1, .digest (buildDigestAuth md5hex cred.username cred.password "GET" uri cnonce ch)]
        else [a1]
    | none => [a1]
  else [a1]

/-- A concrete 401 response carrying a well-formed Digest challenge,
used by the C7 counterexample and witness. -/
def digest401Response : HttpResponse :=
  { status := 401,
    wwwAuthenticate := "Digest realm=\"antMiner Configuration\", nonce=\"ae01\", qop=\"auth\"" }

/-- A server that answers every request with digest401Response. -/
def digest401Server : AuthHdr → HttpResponse := fun _ => digest401Response

/-- The synthetic no-auth credential the credential builder guarantees. -/
def noAuthCred : Cred := { name := "no-auth" }

/-- The stock root/root credential. -/
def stockCred : Cred := { name := "stock:root/root", username := "root", password := "root" }

/-- A tagging stand-in for md5hex, making the hashed argument strings
visible in results. -/
def tagMD5 : String → String := fun s => "MD5(" ++ s ++ ")"

/-- The parsed form of the challenge in digest401Response. -/
def exampleChallenge : DigestChallenge :=
  { realm := "antMiner Configuration", nonce := "ae01", qop := "auth" }

/-- C7 counterexample: the claim asserts a retry on every 401 carrying a
Digest challenge, but for the synthetic no-auth credential (empty
username) the prober sends no second request: with a server answering 401
with a well-formed Digest challenge, exactly one request is issued. -/
theorem c7_digest_auth_counterexample :
    (digest401Server (basicHdrFor noAuthCred)).status = 401 ∧
    (parseDigestChallenge (digest401Server (basicHdrFor noAuthCred)).wwwAuthenticate).isSome
      = true ∧
    (endpointRequests digest401Server tagMD5 "00c0ffee" noAuthCred
        "/cgi-bin/get_system_info.cgi").length = 1 := by
  refine ⟨rfl, by decide, by decide⟩

/-- C7 (amended): for a credential with a non-empty username, a 401
response carrying a Digest challenge whose qop mentions auth makes the
prober retry exactly once, with an Authorization header whose response
hash is MD5(HA1:nonce:00000001:cnonce:auth:HA2), HA1 =
MD5(username:realm:password), HA2 = MD5(method:uri). -/
theorem c7_digest_auth_amended (serve : AuthHdr → HttpResponse)
    (md5hex : String → String) (cnonce uri : String) (cred : Cred)
    (ch : DigestChallenge)
    (hu : cred.username ≠ "")
    (h401 : (serve (basicHdrFor cred)).status = 401)
    (hch : parseDigestChallenge (serve (basicHdrFor cred)).wwwAuthenticate = some ch)
    (hq : containsSubstr (lowerStr ch.qop) "auth" = true) :
    endpointRequests serve md5hex cnonce cred uri
      = [basicHdrFor cred,
         .digest (buildDigestAuth md5hex cred.username cred.password "GET" uri cnonce ch)] ∧
    buildDigestResponse md5hex cred.username cred.password "GET" uri cnonce ch
      = md5hex (md5hex (cred.username ++ ":" ++ ch.realm ++ ":" ++ cred.password)
          ++ ":" ++ ch.nonce ++ ":" ++ "00000001" ++ ":" ++ cnonce ++ ":" ++ "auth" ++ ":"
          ++ md5hex ("GET" ++ ":" ++ uri)) := by
  have hqop : digestQop ch = "auth" := by
    rw [digestQop]
    simp [hq]
  constructor
  · rw [endpointRequests]
    simp only [h401, hch, if_pos rfl]
    simp [hu]
  · rw [buildDigestResponse]
    simp only [hqop, digestNC]
    simp

/-- Witness for the amended C7: concrete server, the stock root/root
credential, and the challenge of digest401Response. -/
theorem c7_digest_auth_amended_witness :
    (endpointRequests digest401Server tagMD5 "00c0ffee" stockCred
        "/cgi-bin/get_system_info.cgi").length = 2 ∧
    buildDigestResponse tagMD5 "root" "root" "GET"
        "/cgi-bin/get_system_info.cgi" "00c0ffee" exampleChallenge
      = "MD5(MD5(root:antMiner Configuration:root):ae01:00000001:00c0ffee:auth:MD5(GET:/cgi-bin/get_system_info.cgi))" := by
  have h := c7_digest_auth_amended digest401Server tagMD5 "00c0ffee"
    "/cgi-bin/get_system_info.cgi" stockCred exampleChallenge
    (by decide) rfl (by decide) (by decide)
  refine ⟨?_, ?_⟩
  · rw [h.1]
    rfl
  · exact h.2

/-! ## Registry devices and enrichment closures (part_000, part_001)

registry.Device as declared in part_001, extended with the fields the
runProbe closures in part_000 read and write.  Modelled from the spec:
the auth fields (AuthStatus, AuthCredName, AuthError, AuthUpdated) and
the fan/temperature telemetry are used throughout part_000 but their
struct declaration is not among the provided sources; their types follow
spec section 3 (AuthStatus a string in idle/trying/ok/fail, AuthUpdatedAt
a timestamp, telemetry as in ScanResult). -/
structure Device where
  ip : String := ""
  mac : String := ""
  shardID : String := ""
  online : Bool := false
  firstSeen : Nat := 0
  lastSeen : Nat := 0
  vendor : String := ""
  model : String := ""
  firmware : String := ""
  worker : String := ""
  uptimeS : Nat := 0
  hashrateTHS : Rat := 0
  openPorts : List Nat := []
  confidence : Int := 0
  authStatus : String := ""
  authCredName : String := ""
  authError : String := ""
  authUpdated : Nat := 0
  fansRPM : List Int := []
  tempsC : List Rat := []
deriving DecidableEq

/-- antminer httpapi.Facts (httpapi.go extract part). -/
structure Facts where
  mac : String := ""
  model : String := ""
  firmware : String := ""
  worker : String := ""
  uptimeS : Nat := 0
  hashrateTHS : Rat := 0
  fansRPM : List Int := []
  tempsC : List Rat := []
deriving DecidableEq

/-- whatsminer httpapi.Facts (extract.go). -/
structure WhFacts where
  model : String := ""
  uptimeS : Nat := 0
  hashrateTHS : Rat := 0
  fansRPM : List Int := []
  tempsC : List Rat := []
deriving DecidableEq

/-- vnish httpapi.Facts (extract.go). -/
structure VnFacts where
  model : String := ""
  firmware : String := ""
  worker : String := ""
  uptimeS : Nat := 0
  hashrateTHS : Rat := 0
  fansRPM : List Int := []
  tempsC : List Rat := []
deriving DecidableEq

/-- modelnorm.Normalized.  The closures below take modelnorm.Normalize as
a function parameter, so the claims hold for the real normaliser. -/
structure Normalized where
  vendor : String := ""
  model : String := ""
  key : String := ""
deriving DecidableEq

/-- runProbe "mark trying" closure (part_000 lines 286-290). -/
def markTrying (d : Device) (now : Nat) : Device :=
  let d1 := { d with authStatus := "trying" }
  let d2 := { d1 with authUpdated := now }
  { d2 with authError := "" }

/-- runScan onResult enrichment closure (part_000 lines 583-610):
OpenPorts and Confidence always, every other field only on a non-empty /
non-zero incoming value.  The Go closure is a sequence of if-statements;
each guards a distinct field and reads only res, so they are recorded as
independent conditional fields of one update. -/
def applyScanResult (d : Device) (res : Result) : Device :=
  { d with
    openPorts := res.open',
    confidence := res.confidence,
    vendor := if res.vendor ≠ "" then res.vendor else d.vendor,
    model := if res.model ≠ "" then res.model else d.model,
    firmware := if res.firmware ≠ "" then res.firmware else d.firmware,
    worker := if res.worker ≠ "" then res.worker else d.worker,
    uptimeS := if 0 < res.uptimeS then res.uptimeS else d.uptimeS,
    hashrateTHS := if 0 < res.hashrateTHS then res.hashrateTHS else d.hashrateTHS,
    fansRPM := if res.fansRPM ≠ [] then res.fansRPM else d.fansRPM,
    tempsC := if res.tempsC ≠ [] then res.tempsC else d.tempsC }

/-- Whatsminer success closure (part_000 lines 299-320): sequential Go
if-statements over distinct fields, recorded as one update. -/
def whatsminerOkApply (d : Device) (now : Nat) (usedCred : String) (f : WhFacts) : Device :=
  { d with
    authStatus := "ok", authUpdated := now, authCredName := usedCred, authError := "",
    vendor := "whatsminer",
    model := if f.model ≠ "" then f.model else d.model,
    uptimeS := if 0 < f.uptimeS then f.uptimeS else d.uptimeS,
    hashrateTHS := if 0 < f.hashrateTHS then f.hashrateTHS else d.hashrateTHS,
    fansRPM := if f.fansRPM ≠ [] then f.fansRPM else d.fansRPM,
    tempsC := if f.tempsC ≠ [] then f.tempsC else d.tempsC }

/-- Whatsminer failure closure (part_000 lines 323-328): downgrades to
fail unconditionally, with no anti-flap window. -/
def whatsminerFailApply (d : Device) (now : Nat) (usedCred errMsg : String) : Device :=
  { d with authStatus := "fail", authUpdated := now,
           authCredName := usedCred, authError := errMsg }

/-- The zero-facts test of the antminer branch (part_000 line 371). -/
def antminerZeroFacts (f : Facts) : Prop :=
  f.mac = "" ∧ f.worker = "" ∧ f.firmware = "" ∧ f.model = "" ∧
  f.hashrateTHS = 0 ∧ f.uptimeS = 0 ∧ f.fansRPM = [] ∧ f.tempsC = []

instance (f : Facts) : Decidable (antminerZeroFacts f) := by
  unfold antminerZeroFacts
  infer_instance

/-- The fail record written on an authenticated probe with zero facts
(part_000 lines 372-377). -/
def antminerNoDataApply (d : Device) (now : Nat) (usedCred : String) : Device :=
  { d with authStatus := "fail", authUpdated := now,
           authCredName := usedCred, authError := "ok but no parsable data" }

/-- Antminer success closure (part_000 lines 381-421); normalize is
modelnorm.Normalize passed as a parameter.  The sequential Go statements
write distinct fields; the only value a later statement reads back is the
vendor set at lines 386-388, captured here as vendor1 (the mac guard at
line 389 reads a mac no earlier statement writes). -/
def antminerOkApply (normalize : String → Normalized) (d : Device) (now : Nat)
    (usedCred : String) (f : Facts) : Device :=
  let vendor1 := if d.vendor = "" ∨ d.vendor = "unknown" ∨ d.vendor = "asic"
                 then "antminer" else d.vendor
  let n := normalize f.model
  { d with
    authStatus := "ok", authUpdated := now, authCredName := usedCred, authError := "",
    vendor := if f.model ≠ "" ∧ n.model ≠ "" ∧
                 (vendor1 = "" ∨ vendor1 = "unknown" ∨ vendor1 = "asic") ∧ n.vendor ≠ "unknown"
              then n.vendor else vendor1,
    mac := if d.mac = "" ∧ f.mac ≠ "" then f.mac else d.mac,
    model := if f.model ≠ "" then (if n.model ≠ "" then n.model else f.model) else d.model,
    firmware := if f.firmware ≠ "" then f.firmware else d.firmware,
    worker := if f.worker ≠ "" then f.worker else d.worker,
    uptimeS := if 0 < f.uptimeS then f.uptimeS else d.uptimeS,
    hashrateTHS := if 0 < f.hashrateTHS then f.hashrateTHS else d.hashrateTHS,
    fansRPM := if f.fansRPM ≠ [] then f.fansRPM else d.fansRPM,
    tempsC := if f.tempsC ≠ [] then f.tempsC else d.tempsC }

/-- The whole result application of an authenticated antminer probe
(part_000 lines 368-421): zero extracted facts are recorded as fail. -/
def antminerOkResult (normalize : String → Normalized) (d : Device) (now : Nat)
    (usedCred : String) (f : Facts) : Device :=
  if antminerZeroFacts f then antminerNoDataApply d now usedCred
  else antminerOkApply normalize d now usedCred f

/-- Vnish success closure (part_000 lines 428-462): sequential Go
if-statements over distinct fields (no statement reads a field an earlier
one wrote), recorded as one update. -/
def vnishOkApply (normalize : String → Normalized) (d : Device) (now : Nat)
    (usedCred : String) (f : VnFacts) : Device :=
  let n := normalize f.model
  { d with
    authStatus := "ok", authUpdated := now, authCredName := usedCred, authError := "",
    vendor := if d.vendor = "" ∨ d.vendor = "unknown" ∨ d.vendor = "asic"
              then "antminer" else d.vendor,
    model := if f.model ≠ "" then (if n.model ≠ "" then n.model else f.model) else d.model,
    firmware := if f.firmware ≠ "" then f.firmware else d.firmware,
    worker := if f.worker ≠ "" then f.worker else d.worker,
    uptimeS := if 0 < f.uptimeS then f.uptimeS else d.uptimeS,
    hashrateTHS := if 0 < f.hashrateTHS then f.hashrateTHS else d.hashrateTHS,
    fansRPM := if f.fansRPM ≠ [] then f.fansRPM else d.fansRPM,
    tempsC := if f.tempsC ≠ [] then f.tempsC else d.tempsC }

/-- The shared failure closure with the anti-flap window (part_000 lines
467-476), used after the antminer and vnish attempts: a recent ok status
only has its error updated, otherwise the device is downgraded. -/
def sharedFailApply (d : Device) (now : Nat) (usedCred errMsg : String) : Device :=
  if lowerStr d.authStatus = "ok" ∧ now - d.authUpdated < 600 then
    { d with authError := errMsg }
  else
    { d with authStatus := "fail", authUpdated := now,
             authCredName := usedCred, authError := errMsg }

/-! ## C1: monotonic-on-non-empty enrichment -/

/-- Non-erasure: every enrichment field that was known stays known. -/
def enrichedPreserved (old new : Device) : Prop :=
  (old.vendor ≠ "" → new.vendor ≠ "") ∧
  (old.model ≠ "" → new.model ≠ "") ∧
  (old.firmware ≠ "" → new.firmware ≠ "") ∧
  (old.worker ≠ "" → new.worker ≠ "") ∧
  (old.mac ≠ "" → new.mac ≠ "") ∧
  (0 < old.uptimeS → 0 < new.uptimeS) ∧
  (old.hashrateTHS ≠ 0 → new.hashrateTHS ≠ 0) ∧
  (old.fansRPM ≠ [] → new.fansRPM ≠ []) ∧
  (old.tempsC ≠ [] → new.tempsC ≠ [])

/-- Absent scan values never overwrite: each empty / zero field of the
scan result leaves the device field untouched (and the MAC is never
written by a scan result). -/
def scanAbsentPreserved (d : Device) (res : Result) : Prop :=
  (res.vendor = "" → (applyScanResult d res).vendor = d.vendor) ∧
  (res.model = "" → (applyScanResult d res).model = d.model) ∧
  (res.firmware = "" → (applyScanResult d res).firmware = d.firmware) ∧
  (res.worker = "" → (applyScanResult d res).worker = d.worker) ∧
  (res.uptimeS = 0 → (applyScanResult d res).uptimeS = d.uptimeS) ∧
  (res.hashrateTHS = 0 → (applyScanResult d res).hashrateTHS = d.hashrateTHS) ∧
  (res.fansRPM = [] → (applyScanResult d res).fansRPM = d.fansRPM) ∧
  (res.tempsC = [] → (applyScanResult d res).tempsC = d.tempsC) ∧
  (applyScanResult d res).mac = d.mac

/-- Absent antminer facts never overwrite. -/
def antminerAbsentPreserved (normalize : String → Normalized) (d : Device)
    (now : Nat) (cred : String) (f : Facts) : Prop :=
  (f.mac = "" → (antminerOkResult normalize d now cred f).mac = d.mac) ∧
  (f.model = "" → (antminerOkResult normalize d now cred f).model = d.model) ∧
  (f.firmware = "" → (antminerOkResult normalize d now cred f).firmware = d.firmware) ∧
  (f.worker = "" → (antminerOkResult normalize d now cred f).worker = d.worker) ∧
  (f.uptimeS = 0 → (antminerOkResult normalize d now cred f).uptimeS = d.uptimeS) ∧
  (f.hashrateTHS = 0 → (antminerOkResult normalize d now cred f).hashrateTHS = d.hashrateTHS) ∧
  (f.fansRPM = [] → (antminerOkResult normalize d now cred f).fansRPM = d.fansRPM) ∧
  (f.tempsC = [] → (antminerOkResult normalize d now cred f).tempsC = d.tempsC)

/-- Absent whatsminer facts never overwrite (worker, firmware and MAC are
never written by this closure at all). -/
def whatsminerAbsentPreserved (d : Device) (now : Nat) (cred : String) (f : WhFacts) : Prop :=
  (f.model = "" → (whatsminerOkApply d now cred f).model = d.model) ∧
  (f.uptimeS = 0 → (whatsminerOkApply d now cred f).uptimeS = d.uptimeS) ∧
  (f.hashrateTHS = 0 → (whatsminerOkApply d now cred f).hashrateTHS = d.hashrateTHS) ∧
  (f.fansRPM = [] → (whatsminerOkApply d now cred f).fansRPM = d.fansRPM) ∧
  (f.tempsC = [] → (whatsminerOkApply d now cred f).tempsC = d.tempsC) ∧
  (whatsminerOkApply d now cred f).worker = d.worker ∧
  (whatsminerOkApply d now cred f).firmware = d.firmware ∧
  (whatsminerOkApply d now cred f).mac = d.mac

/-- Absent vnish facts never overwrite (the MAC is never written). -/
def vnishAbsentPreserved (normalize : String → Normalized) (d : Device)
    (now : Nat) (cred : String) (f : VnFacts) : Prop :=
  (f.model = "" → (vnishOkApply normalize d now cred f).model = d.model) ∧
  (f.firmware = "" → (vnishOkApply normalize d now cred f).firmware = d.firmware) ∧
  (f.worker = "" → (vnishOkApply normalize d now cred f).worker = d.worker) ∧
  (f.uptimeS = 0 → (vnishOkApply normalize d now cred f).uptimeS = d.uptimeS) ∧
  (f.hashrateTHS = 0 → (vnishOkApply normalize d now cred f).hashrateTHS = d.hashrateTHS) ∧
  (f.fansRPM = [] → (vnishOkApply normalize d now cred f).fansRPM = d.fansRPM) ∧
  (f.tempsC = [] → (vnishOkApply normalize d now cred f).tempsC = d.tempsC) ∧
  (vnishOkApply normalize d now cred f).mac = d.mac

theorem scan_absent_preserved (d : Device) (res : Result) : scanAbsentPreserved d res := by
  unfold scanAbsentPreserved
  refine ⟨?_, ?_, ?_, ?_, ?_, ?_, ?_, ?_, ?_⟩ <;>
    first
      | (intro h; simp [applyScanResult, h])
      | simp [applyScanResult]

theorem scan_enriched_preserved (d : Device) (res : Result) :
    enrichedPreserved d (applyScanResult d res) := by
  unfold enrichedPreserved
  refine ⟨?_, ?_, ?_, ?_, ?_, ?_, ?_, ?_, ?_⟩ <;> intro h <;>
    simp only [applyScanResult] <;>
    first
      | assumption
      | (split_ifs with hw <;> first | assumption | exact ne_of_gt hw)

theorem antminer_absent_preserved (normalize : String → Normalized) (d : Device)
    (now : Nat) (cred : String) (f : Facts) :
    antminerAbsentPreserved normalize d now cred f := by
  unfold antminerAbsentPreserved antminerOkResult
  split_ifs with hz
  · refine ⟨?_, ?_, ?_, ?_, ?_, ?_, ?_, ?_⟩ <;> intro h <;> simp [antminerNoDataApply]
  · refine ⟨?_, ?_, ?_, ?_, ?_, ?_, ?_, ?_⟩ <;> intro h <;>
      simp [antminerOkApply, h]

theorem antminer_enriched_preserved (normalize : String → Normalized) (d : Device)
    (now : Nat) (cred : String) (f : Facts) :
    enrichedPreserved d (antminerOkResult normalize d now cred f) := by
  unfold enrichedPreserved antminerOkResult
  split_ifs with hz
  · refine ⟨?_, ?_, ?_, ?_, ?_, ?_, ?_, ?_, ?_⟩ <;> intro h <;> simp [antminerNoDataApply, h]
  · refine ⟨?_, ?_, ?_, ?_, ?_, ?_, ?_, ?_, ?_⟩ <;> intro h <;>
      simp only [antminerOkApply] <;>
      first
        | assumption
        | (split_ifs with hw <;> first | assumption | exact ne_of_gt hw | simp_all)

theorem whatsminer_absent_preserved (d : Device) (now : Nat) (cred : String) (f : WhFacts) :
    whatsminerAbsentPreserved d now cred f := by
  unfold whatsminerAbsentPreserved
  refine ⟨?_, ?_, ?_, ?_, ?_, ?_, ?_, ?_⟩ <;>
    first
      | (intro h; simp [whatsminerOkApply, h])
      | simp [whatsminerOkApply]

theorem whatsminer_enriched_preserved (d : Device) (now : Nat) (cred : String) (f : WhFacts) :
    enrichedPreserved d (whatsminerOkApply d now cred f) := by
  unfold enrichedPreserved
  refine ⟨?_, ?_, ?_, ?_, ?_, ?_, ?_, ?_, ?_⟩ <;> intro h <;>
    simp only [whatsminerOkApply] <;>
    first
      | assumption
      | decide
      | (split_ifs with hw <;> first | assumption | exact ne_of_gt hw)

theorem vnish_absent_preserved (normalize : String → Normalized) (d : Device)
    (now : Nat) (cred : String) (f : VnFacts) :
    vnishAbsentPreserved normalize d now cred f := by
  unfold vnishAbsentPreserved
  refine ⟨?_, ?_, ?_, ?_, ?_, ?_, ?_, ?_⟩ <;>
    first
      | (intro h; simp [vnishOkApply, h])
      | simp [vnishOkApply]

theorem vnish_enriched_preserved (normalize : String → Normalized) (d : Device)
    (now : Nat) (cred : String) (f : VnFacts) :
    enrichedPreserved d (vnishOkApply normalize d now cred f) := by
  unfold enrichedPreserved
  refine ⟨?_, ?_, ?_, ?_, ?_, ?_, ?_, ?_, ?_⟩ <;> intro h <;>
    simp only [vnishOkApply] <;>
    first
      | assumption
      | (split_ifs with hw <;> first | assumption | exact ne_of_gt hw | simp_all)

/-- C1: every enrichment application — scan results and the three vendor
probe fact closures — is monotonic on non-empty: a field is overwritten
only when the incoming value is non-empty / non-zero (absent values leave
the field untouched), and a known field is never erased.  Holds for every
device state, every incoming result or fact set, and every model
normaliser. -/
theorem c1_monotonic_enrichment (normalize : String → Normalized) (d : Device)
    (res : Result) (fa : Facts) (fw : WhFacts) (fv : VnFacts)
    (now : Nat) (cred : String) :
    scanAbsentPreserved d res ∧
    enrichedPreserved d (applyScanResult d res) ∧
    antminerAbsentPreserved normalize d now cred fa ∧
    enrichedPreserved d (antminerOkResult normalize d now cred fa) ∧
    whatsminerAbsentPreserved d now cred fw ∧
    enrichedPreserved d (whatsminerOkApply d now cred fw) ∧
    vnishAbsentPreserved normalize d now cred fv ∧
    enrichedPreserved d (vnishOkApply normalize d now cred fv) :=
  ⟨scan_absent_preserved d res,
   scan_enriched_preserved d res,
   antminer_absent_preserved normalize d now cred fa,
   antminer_enriched_preserved normalize d now cred fa,
   whatsminer_absent_preserved d now cred fw,
   whatsminer_enriched_preserved d now cred fw,
   vnish_absent_preserved normalize d now cred fv,
   vnish_enriched_preserved normalize d now cred fv⟩

/-- A device with a known worker, for the monotonicity witness. -/
def workerDevice : Device := { ip := "10.0.0.2", worker := "w1" }

/-- A scan result carrying no facts. -/
def emptyResult : Result := {}

/-- Antminer facts with nothing extracted. -/
def emptyFacts : Facts := {}

/-- Whatsminer facts with nothing extracted. -/
def emptyWhFacts : WhFacts := {}

/-- Vnish facts with nothing extracted. -/
def emptyVnFacts : VnFacts := {}

/-- A stand-in for modelnorm.Normalize in concrete witnesses (the claim
theorems quantify over every normaliser). -/
def trivialNormalize : String → Normalized := fun s => { vendor := "unknown", model := s }

/-- Witness for C1: the spec's example — a device with Worker w1 keeps
Worker w1 under every fact application whose worker (or whole fact set)
is absent. -/
theorem c1_monotonic_enrichment_witness :
    (applyScanResult workerDevice emptyResult).worker = "w1" ∧
    (antminerOkResult trivialNormalize workerDevice 5 "c" emptyFacts).worker = "w1" ∧
    (whatsminerOkApply workerDevice 5 "c" emptyWhFacts).worker = "w1" ∧
    (vnishOkApply trivialNormalize workerDevice 5 "c" emptyVnFacts).worker = "w1" := by
  have h := c1_monotonic_enrichment trivialNormalize workerDevice emptyResult
    emptyFacts emptyWhFacts emptyVnFacts 5 "c"
  exact ⟨(h.1.2.2.2.1 rfl).trans rfl,
         (h.2.2.1.2.2.2.1 rfl).trans rfl,
         (h.2.2.2.2.1.2.2.2.2.2.1).trans rfl,
         (h.2.2.2.2.2.2.1.2.2.1 rfl).trans rfl⟩

/-! ## C2: anti-flap grace window -/

/-- A device that has been ok since time 1000. -/
def okDevice : Device := { ip := "10.0.0.3", authStatus := "ok", authUpdated := 1000 }

/-- C2 counterexample: the claim extends the anti-flap window to every
vendor probe path, but the Whatsminer failure closure (part_000 lines
323-328) downgrades unconditionally: a device ok at T0 = 1000 hit by a
failing Whatsminer probe at T0 + 5 min = 1300 (well inside the 10-minute
window) ends with AuthStatus fail, not ok. -/
theorem c2_antiflap_counterexample :
    okDevice.authStatus = "ok" ∧
    (1300 : Nat) < okDevice.authUpdated + 600 ∧
    (whatsminerFailApply okDevice 1300 "cred" "dial tcp timeout").authStatus = "fail" := by
  refine ⟨rfl, by decide, rfl⟩

/-- C2 (amended): the anti-flap window holds for the shared failure
closure used by the stock Antminer and Vnish paths: with AuthStatus ok at
T0, a failing result applied before T0 + 10 min only rewrites AuthError
(status, timestamp and credential stay), and one applied at or after
T0 + 10 min downgrades to fail stamped at the probe time.  (The
Whatsminer failure path downgrades unconditionally, see the
counterexample.) -/
theorem c2_antiflap_amended (d : Device) (now : Nat) (cred errMsg : String)
    (hok : d.authStatus = "ok") :
    (now < d.authUpdated + 600 →
      sharedFailApply d now cred errMsg = { d with authError := errMsg }) ∧
    (d.authUpdated + 600 ≤ now →
      sharedFailApply d now cred errMsg
        = { d with authStatus := "fail", authUpdated := now,
                   authCredName := cred, authError := errMsg }) := by
  have hl : lowerStr d.authStatus = "ok" := by rw [hok]; decide
  constructor
  · intro h
    rw [sharedFailApply, if_pos ⟨hl, by omega⟩]
  · intro h
    rw [sharedFailApply, if_neg (fun hc => absurd hc.2 (by omega))]

/-- Witness for the amended C2 at T0 = 1000: a failure applied at 1300
(+5 min) only rewrites the error, one applied at 1700 (+11 min 40 s)
downgrades to fail. -/
theorem c2_antiflap_amended_witness :
    okDevice.authStatus = "ok" ∧
    (1300 : Nat) < okDevice.authUpdated + 600 ∧
    sharedFailApply okDevice 1300 "cred" "dial tcp timeout"
      = { okDevice with authError := "dial tcp timeout" } ∧
    okDevice.authUpdated + 600 ≤ 1700 ∧
    (sharedFailApply okDevice 1700 "cred" "dial tcp timeout").authStatus = "fail" := by
  have h1 := c2_antiflap_amended okDevice 1300 "cred" "dial tcp timeout" rfl
  have h2 := c2_antiflap_amended okDevice 1700 "cred" "dial tcp timeout" rfl
  refine ⟨rfl, by decide, h1.1 (by decide), by decide, ?_⟩
  rw [h2.2 (by decide)]

/-! ## C3: zero-facts success is a failure -/

/-- C3 (amended): on the stock Antminer path, an authenticated probe whose
fact extraction is entirely empty is recorded as AuthStatus fail with the
distinguishing error, never as ok — for every device, time, credential
and normaliser.  (The Whatsminer and Vnish success closures have no such
check, see the counterexample.) -/
theorem c3_zero_facts_amended (normalize : String → Normalized) (d : Device)
    (now : Nat) (cred : String) (f : Facts) (hz : antminerZeroFacts f) :
    antminerOkResult normalize d now cred f = antminerNoDataApply d now cred ∧
    (antminerOkResult normalize d now cred f).authStatus = "fail" ∧
    (antminerOkResult normalize d now cred f).authError = "ok but no parsable data" ∧
    (antminerOkResult normalize d now cred f).authStatus ≠ "ok" := by
  have he : antminerOkResult normalize d now cred f = antminerNoDataApply d now cred := by
    rw [antminerOkResult, if_pos hz]
  refine ⟨he, ?_, ?_, ?_⟩
  · rw [he]
    rfl
  · rw [he]
    rfl
  · rw [he]
    simp [antminerNoDataApply]

/-- A whatsminer device whose probe authenticates. -/
def whDevice : Device := { ip := "10.0.0.4", vendor := "whatsminer", online := true }

/-- Whatsminer facts with nothing extracted, for the C3 counterexample. -/
def zeroWhFacts : WhFacts := {}

/-- C3 counterexample: the claim covers every vendor path, but the
Whatsminer success closure records AuthStatus ok with an empty error even
when the extracted facts are entirely empty. -/
theorem c3_zero_facts_counterexample :
    (zeroWhFacts.model = "" ∧ zeroWhFacts.uptimeS = 0 ∧ zeroWhFacts.hashrateTHS = 0 ∧
      zeroWhFacts.fansRPM = [] ∧ zeroWhFacts.tempsC = []) ∧
    (whatsminerOkApply whDevice 100 "cred" zeroWhFacts).authStatus = "ok" ∧
    (whatsminerOkApply whDevice 100 "cred" zeroWhFacts).authError = "" := by
  exact ⟨⟨rfl, rfl, rfl, rfl, rfl⟩, rfl, rfl⟩

/-- An antminer device whose probe authenticates. -/
def antDevice : Device := { ip := "10.0.0.6", vendor := "antminer", online := true }

/-- Antminer facts with nothing extracted, for the C3 witness. -/
def zeroAntFacts : Facts := {}

/-- Witness for the amended C3 on a concrete device and empty fact set. -/
theorem c3_zero_facts_amended_witness :
    antminerZeroFacts zeroAntFacts ∧
    (antminerOkResult trivialNormalize antDevice 100 "c" zeroAntFacts).authStatus = "fail" ∧
    (antminerOkResult trivialNormalize antDevice 100 "c" zeroAntFacts).authError
      = "ok but no parsable data" := by
  have h := c3_zero_facts_amended trivialNormalize antDevice 100 "c" zeroAntFacts (by decide)
  exact ⟨by decide, h.2.1, h.2.2.1⟩

/-! ## C9: subscriber channels and notification coalescing (part_001) -/

/-- A buffered Go channel of empty structs, reduced to its capacity and
current occupancy. -/
structure Chan where
  cap : Nat
  occ : Nat
deriving DecidableEq

/-- The non-blocking send in notifyLocked (select with default): deliver
into a free slot, drop the signal otherwise. -/
def trySend (c : Chan) : Chan :=
  if c.occ < c.cap then { c with occ := c.occ + 1 } else c

/-- registry.Store (part_001): the device map and the subscriber set. -/
structure Store where
  byIP : List (String × Device) := []
  subs : List Chan := []

/-- Go map read (map[string]*Device). -/
def lookupIP : List (String × Device) → String → Option Device
  | [], _ => none
  | (k, v) :: rest, ip => if k = ip then some v else lookupIP rest ip

/-- Go map write. -/
def setIP : List (String × Device) → String → Device → List (String × Device)
  | [], ip, d => [(ip, d)]
  | (k, v) :: rest, ip, d => if k = ip then (k, d) :: rest else (k, v) :: setIP rest ip d

/-- Store.notifyLocked (part_001 lines 132-142): one non-blocking send to
every subscriber. -/
def Store.notifyLocked (s : Store) : Store := { s with subs := s.subs.map trySend }

/-- Store.Subscribe (part_001 lines 113-130): registers a fresh channel of
capacity 1 (make(chan struct, 1)). -/
def Store.subscribe (s : Store) : Store :=
  { s with subs := s.subs ++ [{ cap := 1, occ := 0 }] }

/-- Store.UpsertDiscovery (part_001 lines 45-64). -/
def Store.upsertDiscovery (s : Store) (shard ip mac : String) (now : Nat) : Store :=
  let d0 := match lookupIP s.byIP ip with
            | some d => d
            | none => { ip := ip, mac := mac, shardID := shard, firstSeen := now }
  let d1 := if mac ≠ "" then { d0 with mac := mac } else d0
  let d2 := if shard ≠ "" then { d1 with shardID := shard } else d1
  Store.notifyLocked { s with byIP := setIP s.byIP ip { d2 with lastSeen := now } }

/-- Store.UpsertObserved (part_001 lines 78-98). -/
def Store.upsertObserved (s : Store) (shard ip mac : String) (online : Bool) (now : Nat) :
    Store :=
  let d0 := match lookupIP s.byIP ip with
            | some d => d
            | none => { ip := ip, mac := mac, shardID := shard, firstSeen := now }
  let d1 := if mac ≠ "" then { d0 with mac := mac } else d0
  let d2 := if shard ≠ "" then { d1 with shardID := shard } else d1
  let d3 := { d2 with online := online }
  Store.notifyLocked { s with byIP := setIP s.byIP ip { d3 with lastSeen := now } }

/-- Store.UpdateEnrichment (part_001 lines 66-76): a no-op on unknown IPs,
otherwise run the mutator, bump LastSeen and notify. -/
def Store.updateEnrichment (s : Store) (ip : String) (fn : Device → Device) (now : Nat) :
    Store :=
  match lookupIP s.byIP ip with
  | none => s
  | some d => Store.notifyLocked { s with byIP := setIP s.byIP ip { fn d with lastSeen := now } }

/-- The store operations a client can interleave. -/
inductive StoreOp
  | disc (shard ip mac : String) (now : Nat)
  | obs (shard ip mac : String) (online : Bool) (now : Nat)
  | enrich (ip : String) (fn : Device → Device) (now : Nat)
  | sub

/-- Apply one operation. -/
def applyOp (s : Store) : StoreOp → Store
  | .disc shard ip mac now => s.upsertDiscovery shard ip mac now
  | .obs shard ip mac online now => s.upsertObserved shard ip mac online now
  | .enrich ip fn now => s.updateEnrichment ip fn now
  | .sub => s.subscribe

/-- Apply a whole sequence of operations. -/
def applyOps (s : Store) (ops : List StoreOp) : Store := ops.foldl applyOp s

/-- trySend keeps a capacity-1 channel at occupancy at most 1. -/
theorem trySend_inv (c : Chan) (h : c.cap = 1 ∧ c.occ ≤ 1) :
    (trySend c).cap = 1 ∧ (trySend c).occ ≤ 1 := by
  unfold trySend
  split_ifs with hlt
  · refine ⟨h.1, ?_⟩
    show c.occ + 1 ≤ 1
    have := h.1
    omega
  · exact h

/-- One operation preserves the channel invariant. -/
theorem applyOp_subs_inv (s : Store) (op : StoreOp)
    (h : ∀ c ∈ s.subs, c.cap = 1 ∧ c.occ ≤ 1) :
    ∀ c ∈ (applyOp s op).subs, c.cap = 1 ∧ c.occ ≤ 1 := by
  cases op with
  | disc shard ip mac now =>
      intro c hc
      simp only [applyOp, Store.upsertDiscovery, Store.notifyLocked, List.mem_map] at hc
      obtain ⟨c0, hc0, rfl⟩ := hc
      exact trySend_inv c0 (h c0 hc0)
  | obs shard ip mac online now =>
      intro c hc
      simp only [applyOp, Store.upsertObserved, Store.notifyLocked, List.mem_map] at hc
      obtain ⟨c0, hc0, rfl⟩ := hc
      exact trySend_inv c0 (h c0 hc0)
  | enrich ip fn now =>
      intro c hc
      simp only [applyOp, Store.updateEnrichment] at hc
      cases hl : lookupIP s.byIP ip with
      | none =>
          rw [hl] at hc
          exact h c hc
      | some d =>
          rw [hl] at hc
          simp only [Store.notifyLocked, List.mem_map] at hc
          obtain ⟨c0, hc0, rfl⟩ := hc
          exact trySend_inv c0 (h c0 hc0)
  | sub =>
      intro c hc
      simp only [applyOp, Store.subscribe, List.mem_append, List.mem_singleton] at hc
      rcases hc with hc | rfl
      · exact h c hc
      · exact ⟨rfl, by decide⟩

/-- C9: every subscriber channel is created with capacity 1, every
mutation only performs non-blocking sends, and so after any sequence of
discovery upserts, observation upserts, enrichment updates and new
subscriptions, every subscriber channel still holds at most one pending
signal (occupancy never exceeds 1) — however many mutations ran while it
was undrained. -/
theorem c9_notification_coalescing (s : Store) (ops : List StoreOp)
    (h : ∀ c ∈ s.subs, c.cap = 1 ∧ c.occ ≤ 1) :
    ∀ c ∈ (applyOps s ops).subs, c.cap = 1 ∧ c.occ ≤ 1 := by
  induction ops generalizing s with
  | nil => exact h
  | cons op rest ih => exact ih (applyOp s op) (applyOp_subs_inv s op h)

/-- Witness for C9: one subscriber, then three rapid mutations with the
channel undrained — exactly one signal is pending, not three. -/
theorem c9_notification_coalescing_witness :
    (applyOps {} [StoreOp.sub,
        StoreOp.disc "scanner" "10.0.0.1" "" 1,
        StoreOp.disc "scanner" "10.0.0.1" "" 2,
        StoreOp.obs "scanner" "10.0.0.1" "" true 3]).subs
      = [{ cap := 1, occ := 1 }] ∧
    (∀ c ∈ (applyOps {} [StoreOp.sub,
        StoreOp.disc "scanner" "10.0.0.1" "" 1,
        StoreOp.disc "scanner" "10.0.0.1" "" 2,
        StoreOp.obs "scanner" "10.0.0.1" "" true 3]).subs, c.cap = 1 ∧ c.occ ≤ 1) := by
  constructor
  · rfl
  · exact c9_notification_coalescing {} _ (by intro c hc; simp at hc)

/-! ## C8: Store.List snapshots and slice aliasing (part_001 lines 100-110)

Store.List copies each stored struct (cp := *d) and returns pointers to
the fresh copies.  A Go slice field is a header (pointer, len, cap) into a
backing array; the struct copy duplicates the header, not the array.  To
make that observable in a value language, the OpenPorts field is a
reference into an explicit heap of backing arrays: a deep copy would
allocate a fresh array id, the struct copy keeps the id. -/

/-- A reference to a slice backing array. -/
abbrev ArrayId := Nat

/-- registry.Device exactly as declared in part_001, with the slice-valued
OpenPorts field as a backing-array reference. -/
structure SliceDevice where
  ip : String := ""
  mac : String := ""
  shardID : String := ""
  online : Bool := false
  firstSeen : Nat := 0
  lastSeen : Nat := 0
  vendor : String := ""
  model : String := ""
  firmware : String := ""
  worker : String := ""
  uptimeS : Nat := 0
  hashrateTHS : Rat := 0
  openPorts : ArrayId := 0
  confidence : Int := 0
deriving DecidableEq

/-- The heap of slice backing arrays. -/
structure SliceHeap where
  arrays : List (List Int)
deriving DecidableEq

/-- Read a whole backing array. -/
def SliceHeap.read (h : SliceHeap) (id : ArrayId) : List Int := h.arrays.getD id []

/-- Write one element through a slice header (ports[i] = v in Go). -/
def SliceHeap.writeElem (h : SliceHeap) (id : ArrayId) (i : Nat) (v : Int) : SliceHeap :=
  { arrays := h.arrays.set id ((h.arrays.getD id []).set i v) }

/-- The registry map (key = IP). -/
structure SliceStore where
  byIP : List (String × SliceDevice)
deriving DecidableEq

/-- Store.List (part_001 lines 100-110): for each stored device, cp := *d
copies every field — including the OpenPorts slice header — into a fresh
struct. -/
def SliceStore.list (s : SliceStore) : List SliceDevice := s.byIP.map Prod.snd

/-- The open-port values an observer sees for a device. -/
def observedPorts (h : SliceHeap) (d : SliceDevice) : List Int := h.read d.openPorts

/-- The heap with one backing array [80]. -/
def heap0 : SliceHeap := { arrays := [[80]] }

/-- A stored device whose OpenPorts header points at that array. -/
def storedDev : SliceDevice := { ip := "10.0.0.8", openPorts := 0 }

/-- A registry holding storedDev. -/
def store0 : SliceStore := { byIP := [("10.0.0.8", storedDev)] }

/-- C8 counterexample: the record returned by List carries the same
OpenPorts header as the stored one, so writing element 0 of the returned
record's OpenPorts (80 to 9999) changes the ports observed for the
registry's own device: the snapshot is not a deep copy. -/
theorem c8_deep_copy_counterexample :
    (SliceStore.list store0).head? = some storedDev ∧
    ((SliceStore.list store0).head?.map SliceDevice.openPorts)
      = some storedDev.openPorts ∧
    observedPorts heap0 storedDev = [80] ∧
    observedPorts (heap0.writeElem storedDev.openPorts 0 9999) storedDev = [9999] := by
  refine ⟨rfl, rfl, rfl, rfl⟩

/-- C8 (amended): List returns fresh structs whose field values equal the
stored ones — so rebinding a whole field of a returned record cannot touch
the store — but the OpenPorts header is shared: writing an element through
any returned record is observed through the stored record too. -/
theorem c8_shallow_copy_amended (s : SliceStore) (h : SliceHeap) (d : SliceDevice)
    (hmem : d ∈ SliceStore.list s) (hvalid : d.openPorts < h.arrays.length) :
    (∃ k ∈ s.byIP, k.2 = d) ∧
    ∀ i v, observedPorts (h.writeElem d.openPorts i v) d
        = (observedPorts h d).set i v := by
  constructor
  · simp only [SliceStore.list, List.mem_map] at hmem
    obtain ⟨k, hk, rfl⟩ := hmem
    exact ⟨k, hk, rfl⟩
  · intro i v
    unfold observedPorts SliceHeap.read SliceHeap.writeElem
    rw [List.getD_eq_getElem?_getD, List.getD_eq_getElem?_getD,
        List.getElem?_set_self]
    · simp
    · exact hvalid

/-- Witness for the amended C8 on the concrete store and heap. -/
theorem c8_shallow_copy_amended_witness :
    storedDev ∈ SliceStore.list store0 ∧
    observedPorts (heap0.writeElem storedDev.openPorts 0 9999) storedDev
      = (observedPorts heap0 storedDev).set 0 9999 := by
  have h := c8_shallow_copy_amended store0 heap0 storedDev (by decide) (by decide)
  exact ⟨by decide, h.2 0 9999⟩

/-! ## C10: per-IP backoff is consumed before the queue send (part_000)

Times are Unix seconds as Int (time.Time), intervals are seconds as Int
(time.Duration).  A missing probeNext entry is the Go zero time, which
time.Now() is never before, so it opens the gate. -/

/-- The state enqueueProbe mutates: the per-IP next-allowed-probe map and
the occupancy of the 8192-slot probe request queue. -/
structure SchedState where
  probeNext : List (String × Int) := []
  queueLen : Nat := 0
deriving DecidableEq

/-- Capacity of probeCh (part_000 line 119). -/
def probeQueueCap : Nat := 8192

/-- Go map read (probeNext[ip]). -/
def lookupNext : List (String × Int) → String → Option Int
  | [], _ => none
  | (k, v) :: rest, ip => if k = ip then some v else lookupNext rest ip

/-- Go map write (probeNext[ip] = t). -/
def setNext : List (String × Int) → String → Int → List (String × Int)
  | [], ip, t => [(ip, t)]
  | (k, v) :: rest, ip, t => if k = ip then (k, t) :: rest else (k, v) :: setNext rest ip t

/-- The default substitution for non-positive intervals (part_000 lines
127-129): 30 seconds. -/
def effInterval (m : Int) : Int := if m ≤ 0 then 30 else m

/-- The backoff gate of enqueueProbe (part_000 lines 130-136): a call is
allowed unless now is before the recorded next-allowed time; a missing
entry is the Go zero time, which now is never before. -/
def gateOpen (st : SchedState) (ip : String) (now : Int) : Bool :=
  match lookupNext st.probeNext ip with
  | none => true
  | some next => decide (next ≤ now)

/-- enqueueProbe (part_000 lines 123-144): ignore empty IPs; drop calls
whose gate is closed; otherwise record the new window now + interval and
attempt the non-blocking queue send, dropping the request when the queue
is full (the window stays spent either way).  Returns the new state and
whether the call passed the backoff gate. -/
def enqueueProbe (st : SchedState) (ip : String) (now : Int) (minInterval : Int) :
    SchedState × Bool :=
  if ip = "" then (st, false)
  else if gateOpen st ip now then
    ({ probeNext := setNext st.probeNext ip (now + effInterval minInterval),
       queueLen := if st.queueLen < probeQueueCap then st.queueLen + 1 else st.queueLen },
     true)
  else (st, false)

/-- One enqueueProbe call described as an event. -/
structure ProbeEvent where
  ip : String
  now : Int
  minInterval : Int
deriving DecidableEq

/-- State after one call. -/
def stepEnqueue (st : SchedState) (e : ProbeEvent) : SchedState :=
  (enqueueProbe st e.ip e.now e.minInterval).1

/-- Whether one call passed the backoff gate. -/
def passedGate (st : SchedState) (e : ProbeEvent) : Bool :=
  (enqueueProbe st e.ip e.now e.minInterval).2

/-- State after a sequence of calls. -/
def runEnqueues (st : SchedState) (es : List ProbeEvent) : SchedState :=
  es.foldl stepEnqueue st

/-- The effective interval is positive. -/
theorem effInterval_pos (m : Int) : 0 < effInterval m := by
  unfold effInterval
  split_ifs <;> omega

/-- Writing a key and reading it back. -/
theorem lookupNext_setNext_self (l : List (String × Int)) (ip : String) (t : Int) :
    lookupNext (setNext l ip t) ip = some t := by
  induction l with
  | nil => simp [setNext, lookupNext]
  | cons kv rest ih =>
      obtain ⟨k, v⟩ := kv
      by_cases hk : k = ip
      · simp [setNext, lookupNext, hk]
      · simp [setNext, lookupNext, hk, ih]

/-- Writing another key leaves a read unchanged. -/
theorem lookupNext_setNext_other (l : List (String × Int)) (ip2 ip : String) (t : Int)
    (hne : ip2 ≠ ip) :
    lookupNext (setNext l ip2 t) ip = lookupNext l ip := by
  induction l with
  | nil => simp [setNext, lookupNext, hne]
  | cons kv rest ih =>
      obtain ⟨k, v⟩ := kv
      by_cases hk : k = ip2
      · subst hk
        simp [setNext, lookupNext, hne]
      · simp [setNext, lookupNext, hk, ih]

/-- A gate-passing call cannot have an empty IP. -/
theorem passed_gate_ip_ne (st : SchedState) (e : ProbeEvent)
    (h : passedGate st e = true) : e.ip ≠ "" := by
  intro hip
  unfold passedGate enqueueProbe at h
  rw [if_pos hip] at h
  simp at h

/-- A gate-passing call had an open gate. -/
theorem passed_gate_open (st : SchedState) (e : ProbeEvent)
    (h : passedGate st e = true) : gateOpen st e.ip e.now = true := by
  have hip := passed_gate_ip_ne st e h
  unfold passedGate enqueueProbe at h
  rw [if_neg hip] at h
  by_contra hg
  rw [Bool.not_eq_true] at hg
  rw [hg] at h
  simp at h

/-- A call that passes the gate records now + interval for its IP before
anything else happens (in particular, whatever the queue does). -/
theorem passed_gate_records (st : SchedState) (e : ProbeEvent)
    (h : passedGate st e = true) :
    lookupNext (stepEnqueue st e).probeNext e.ip
      = some (e.now + effInterval e.minInterval) := by
  have hip := passed_gate_ip_ne st e h
  have hg := passed_gate_open st e h
  unfold stepEnqueue enqueueProbe
  rw [if_neg hip, hg, if_pos rfl]
  exact lookupNext_setNext_self st.probeNext e.ip _

/-- The recorded next-allowed time for an IP never moves backwards. -/
theorem probeNext_mono_step (st : SchedState) (e : ProbeEvent) (ip : String) (v : Int)
    (h : lookupNext st.probeNext ip = some v) :
    ∃ w, lookupNext (stepEnqueue st e).probeNext ip = some w ∧ v ≤ w := by
  unfold stepEnqueue enqueueProbe
  by_cases hip : e.ip = ""
  · rw [if_pos hip]
    exact ⟨v, h, le_refl v⟩
  · rw [if_neg hip]
    cases hg : gateOpen st e.ip e.now with
    | false =>
        rw [if_neg (by simp)]
        exact ⟨v, h, le_refl v⟩
    | true =>
        rw [if_pos rfl]
        by_cases hipeq : e.ip = ip
        · subst hipeq
          refine ⟨e.now + effInterval e.minInterval,
            lookupNext_setNext_self st.probeNext e.ip _, ?_⟩
          unfold gateOpen at hg
          rw [h] at hg
          simp at hg
          have := effInterval_pos e.minInterval
          omega
        · refine ⟨v, ?_, le_refl v⟩
          rw [lookupNext_setNext_other st.probeNext e.ip ip _ hipeq]
          exact h

/-- A call can only pass the gate at or after the recorded time. -/
theorem passed_gate_after (st : SchedState) (e : ProbeEvent) (w : Int)
    (h : passedGate st e = true)
    (hw : lookupNext st.probeNext e.ip = some w) : w ≤ e.now := by
  have hg := passed_gate_open st e h
  unfold gateOpen at hg
  rw [hw] at hg
  simpa using hg

/-- Monotonicity over a whole sequence of calls. -/
theorem probeNext_mono_run (es : List ProbeEvent) (st : SchedState) (ip : String) (v : Int)
    (h : lookupNext st.probeNext ip = some v) :
    ∃ w, lookupNext (runEnqueues st es).probeNext ip = some w ∧ v ≤ w := by
  induction es generalizing st v with
  | nil => exact ⟨v, h, le_refl v⟩
  | cons e rest ih =>
      obtain ⟨w1, hw1, hle1⟩ := probeNext_mono_step st e ip v h
      obtain ⟨w2, hw2, hle2⟩ := ih (stepEnqueue st e) w1 hw1
      exact ⟨w2, hw2, le_trans hle1 hle2⟩

/-- C10: the backoff window is consumed before the queue send.  First,
whether a call passes the gate — and the window it records — does not
depend on the queue occupancy at all (so a request dropped by a full
queue still spends its window); second, for any one IP, if a call passes
the gate at time t1 with interval m1 and any later call for that IP
passes the gate at time t2, then t1 + effInterval m1 <= t2, whatever
happened in between. -/
theorem c10_backoff_before_send (st : SchedState) (mid : List ProbeEvent)
    (e1 e2 : ProbeEvent) (hip : e1.ip = e2.ip)
    (h1 : passedGate st e1 = true)
    (h2 : passedGate (runEnqueues (stepEnqueue st e1) mid) e2 = true) :
    (e1.now + effInterval e1.minInterval ≤ e2.now) ∧
    (∀ ps : List (String × Int), ∀ q q' : Nat, ∀ ip : String, ∀ now m : Int,
      (enqueueProbe { probeNext := ps, queueLen := q } ip now m).2
        = (enqueueProbe { probeNext := ps, queueLen := q' } ip now m).2 ∧
      (enqueueProbe { probeNext := ps, queueLen := q } ip now m).1.probeNext
        = (enqueueProbe { probeNext := ps, queueLen := q' } ip now m).1.probeNext) := by
  constructor
  · have hrec := passed_gate_records st e1 h1
    rw [hip] at hrec
    obtain ⟨w, hw, hle⟩ := probeNext_mono_run mid (stepEnqueue st e1) e2.ip _ hrec
    have := passed_gate_after (runEnqueues (stepEnqueue st e1) mid) e2 w h2 hw
    omega
  · intro ps q q' ip now m
    have hgq : gateOpen { probeNext := ps, queueLen := q } ip now
        = gateOpen { probeNext := ps, queueLen := q' } ip now := rfl
    unfold enqueueProbe
    rw [hgq]
    split_ifs <;> simp_all

/-- A scheduler state whose probe queue is already full. -/
def fullSched : SchedState := { queueLen := 8192 }

/-- First gate-passing call (default interval: 0 becomes 30 s). -/
def c10e1 : ProbeEvent := { ip := "10.0.0.1", now := 100, minInterval := 0 }

/-- A call inside the window, dropped by the gate. -/
def c10mid : ProbeEvent := { ip := "10.0.0.1", now := 110, minInterval := 0 }

/-- Second gate-passing call. -/
def c10e2 : ProbeEvent := { ip := "10.0.0.1", now := 131, minInterval := 0 }

/-- Witness for C10: with the queue full, the first call passes the gate
but its request is dropped (queue occupancy unchanged); a call 10 s later
is refused, and the next passing call comes only at 131 >= 100 + 30. -/
theorem c10_backoff_before_send_witness :
    passedGate fullSched c10e1 = true ∧
    (stepEnqueue fullSched c10e1).queueLen = 8192 ∧
    passedGate (runEnqueues (stepEnqueue fullSched c10e1) [c10mid]) c10mid = false ∧
    passedGate (runEnqueues (stepEnqueue fullSched c10e1) [c10mid]) c10e2 = true ∧
    c10e1.now + effInterval c10e1.minInterval ≤ c10e2.now := by
  refine ⟨by decide, by decide, by decide, by decide, ?_⟩
  exact (c10_backoff_before_send fullSched [c10mid] c10e1 c10e2 rfl
    (by decide) (by decide)).1
